import Mathlib

/-!
Verification of the minimal WebSocket client in `tempest/common/compute.py`
(`create_websocket` and the `_WebSocket` class).

The socket is modelled as a queue of delivery chunks: `recv n` returns up to
`n` bytes of the first pending chunk (a blocking socket returns whatever is
currently available, at most `n` bytes), and returns the empty string once the
queue is exhausted (peer closed).  Bytes are natural numbers below 256.
-/

namespace Tempest

/-- The mutable state of a `_WebSocket`: the `cached_stream` read-ahead
buffer, and the pending socket deliveries. -/
structure WSState where
  cached_stream : List Nat
  chunks : List (List Nat)
  deriving DecidableEq, Repr

/-- `socket.recv n`: return up to `n` bytes from the first pending delivery,
leaving the remainder pending; an exhausted queue models a closed peer and
yields the empty byte string. -/
def sockRecv (n : Nat) : List (List Nat) → List Nat × List (List Nat)
  | [] => ([], [])
  | c :: rest => (c.take n, if c.drop n = [] then rest else c.drop n :: rest)

/-- `_WebSocket._recv`: serve from `cached_stream` first, then from the
socket; `None` when the requested size is not positive. -/
def wsRecv (recv_size : Nat) (s : WSState) : Option (List Nat) × WSState :=
  if recv_size = 0 then (none, s)
  else
    let k := min s.cached_stream.length recv_size
    let rem := recv_size - k
    if 0 < rem then
      (some (s.cached_stream.take k ++ (sockRecv rem s.chunks).1),
       ⟨s.cached_stream.drop k, (sockRecv rem s.chunks).2⟩)
    else
      (some (s.cached_stream.take k), ⟨s.cached_stream.drop k, s.chunks⟩)

/-- Result of `_WebSocket.receive_frame`.  `fuelOut` is a modelling artifact
bounding the retry loop; `indexError` models the runtime error raised by the
out-of-bounds access `header[1]`. -/
inductive RecvResult where
  | fuelOut
  | indexError
  | frame (payload : Option (List Nat)) (s : WSState)
  deriving DecidableEq, Repr

/-- `_WebSocket.receive_frame`: read a 2-byte header, return `None` when no
data came back, retry on a zero payload-length field, otherwise read
`header[1] & 127` payload bytes. -/
def receive_frame : Nat → WSState → RecvResult
  | 0, _ => .fuelOut
  | fuel + 1, s =>
    let r := wsRecv 2 s
    match r.1 with
    | none => .frame none r.2
    | some [] => .frame none r.2
    | some header =>
      match header.get? 1 with
      | none => .indexError
      | some h1 =>
        if 0 < h1 &&& 127 then
          .frame (wsRecv (h1 &&& 127) r.2).1 (wsRecv (h1 &&& 127) r.2).2
        else receive_frame fuel r.2

/-- The hard-coded mask key of `_WebSocket.send_frame`. -/
def mask : List Nat := [7, 2, 1, 9]

/-- `_WebSocket.send_frame`: first byte 130, second byte `len(data) | 128`,
the 4 mask-key bytes, then each data byte XORed with the mask key cycled
over its 4 bytes.  (`struct.pack` of byte-sized values is the identity on
this byte-list representation.) -/
def send_frame (data : List Nat) : List Nat :=
  let frame_bytes := [130]
  let frame_bytes := frame_bytes ++ [data.length ||| 128]
  let frame_bytes := frame_bytes ++ mask
  let frame_bytes := frame_bytes ++
    (List.range data.length).map (fun i => data.getD i 0 ^^^ mask.getD (i % 4) 0)
  frame_bytes

/-- The socket-level operations `close` may perform. -/
inductive SockOp where
  | shutdown (how : Nat)
  | close
  deriving DecidableEq, Repr

/-- `_WebSocket.close`: when the socket handle is still present, shut down
the send direction, close the socket and drop the handle; otherwise do
nothing.  The second component records the socket operations performed. -/
def ws_close : Option Unit → Option Unit × List SockOp
  | some _ => (none, [SockOp.shutdown 1, SockOp.close])
  | none => (none, [])

/-- `bytes.find`: index of the first occurrence of `pat` in `l`, or `none`. -/
def findSubIdx : List Nat → List Nat → Option Nat
  | [], pat => if pat.isEmpty then some 0 else none
  | a :: t, pat =>
    if pat.isPrefixOf (a :: t) then some 0 else (findSubIdx t pat).map (· + 1)

/-- Python `bytes.find`: first index of `pat` in `l`, `-1` when absent. -/
def pyFind (l pat : List Nat) : Int :=
  match findSubIdx l pat with
  | some k => (k : Int)
  | none => -1

/-- The header/body delimiter `b'\r\n\r\n'`. -/
def crlfcrlf : List Nat := [13, 10, 13, 10]

/-- The accumulation loop of `_WebSocket._upgrade`: while the last read
returned data and the delimiter has not been found, read another chunk and
append it to `response`.  Returns the accumulated response and the chunks
still pending; `none` when the fuel bound is hit. -/
def upgrade_loop (fuel : Nat) (response data : List Nat) (chunks : List (List Nat)) :
    Option (List Nat × List (List Nat)) :=
  match fuel with
  | 0 => none
  | fuel + 1 =>
    if data ≠ [] ∧ pyFind response crlfcrlf < 0 then
      let (d, chunks₁) := sockRecv 4096 chunks
      upgrade_loop fuel (response ++ d) d chunks₁
    else some (response, chunks)

/-- The response-reading tail of `_WebSocket._upgrade`: the initial
`recv(4096)`, the accumulation loop, and the final split
`response[:end_loc+4]` / `response[end_loc+4:]` guarded by
`len(response) > end_loc + 4` (with `end_loc = -1` when the delimiter is
absent, exactly as Python's `find` reports it).  Returns the retained
`self.response` and the resulting `WSState` (read-ahead buffer plus the
chunks still pending). -/
def upgrade_read (fuel : Nat) (chunks : List (List Nat)) :
    Option (List Nat × WSState) :=
  let (d, chunks₁) := sockRecv 4096 chunks
  match upgrade_loop fuel d d chunks₁ with
  | none => none
  | some (response, chunks₂) =>
    let e := pyFind response crlfcrlf
    if (response.length : Int) > e + 4 then
      some (response.take (e + 4).toNat, ⟨response.drop (e + 4).toNat, chunks₂⟩)
    else
      some (response, ⟨[], chunks₂⟩)

/-- One entry of the `socket.getaddrinfo` result, together with whether a
TCP connect to that address succeeds. -/
structure AddrInfo where
  sa : Nat
  connects : Bool
  deriving DecidableEq, Repr

/-- The connect loop of `create_websocket`: try each resolved address in
order, keep the first that connects, and raise
`socket.error('WebSocket creation failed')` when the list is exhausted. -/
def create_websocket : List AddrInfo → Except String Nat
  | [] => .error "WebSocket creation failed"
  | a :: rest => if a.connects then .ok a.sa else create_websocket rest

/-- Value of a hexadecimal digit, as used by percent-decoding. -/
def hexVal (c : Char) : Option Nat :=
  if '0' ≤ c ∧ c ≤ '9' then some (c.toNat - '0'.toNat)
  else if 'a' ≤ c ∧ c ≤ 'f' then some (c.toNat - 'a'.toNat + 10)
  else if 'A' ≤ c ∧ c ≤ 'F' then some (c.toNat - 'A'.toNat + 10)
  else none

/-- `urllib.parse.unquote_plus` as used by `parse_qs`: `'+'` becomes a
space and `%XX` (hex) becomes the character of that byte value; a `'%'` not
followed by two hex digits is kept verbatim.  (Decoding is modelled
byte-wise; multi-byte UTF-8 reassembly does not matter here because the
claims compare both sides through this same function.) -/
def unquoteChars : List Char → List Char
  | [] => []
  | '%' :: a :: b :: rest =>
    match hexVal a, hexVal b with
    | some x, some y => Char.ofNat (16 * x + y) :: unquoteChars rest
    | _, _ => '%' :: unquoteChars (a :: b :: rest)
  | '+' :: rest => ' ' :: unquoteChars rest
  | c :: rest => c :: unquoteChars rest

/-- Split a character list on every occurrence of `sep` (Python
`str.split(sep)`): empty pieces between consecutive separators are kept. -/
def splitOn (sep : Char) : List Char → List (List Char)
  | [] => [[]]
  | c :: rest =>
    let r := splitOn sep rest
    if c = sep then [] :: r
    else
      match r with
      | h :: t => (c :: h) :: t
      | [] => [[c]]

/-- Python `name_value.split('=', 1)`: split at the first `'='` only;
`none` when there is no `'='` at all. -/
def splitFirstEq : List Char → Option (List Char × List Char)
  | [] => none
  | '=' :: rest => some ([], rest)
  | c :: rest => (splitFirstEq rest).map fun p => (c :: p.1, p.2)

/-- `urllib.parse.parse_qsl` with its default arguments
(`keep_blank_values=False`): split the query on `'&'`, drop empty fields,
fields without `'='` and fields with an empty raw value, and percent-decode
both name and value. -/
def parse_qsl (q : List Char) : List (List Char × List Char) :=
  (splitOn '&' q).filterMap fun nv =>
    match splitFirstEq nv with
    | none => none
    | some (name, value) =>
      if value = [] then none
      else some (unquoteChars name, unquoteChars value)

/-- `parse_qs(query)['path'][0]` guarded by `'path' in qparams`: the first
decoded value whose decoded name is `path`, if any. -/
def qsPath (query : String) : Option String :=
  ((parse_qsl query.data).lookup "path".data).map String.mk

/-- The `urllib.parse.urlparse` fields `_WebSocket._upgrade` and
`create_websocket` consult. -/
structure ParsedUrl where
  scheme : String
  hostname : String
  port : Option Nat
  query : String

/-- The fallback port of `create_websocket`:
`443 if url.scheme == 'https' else 80`. -/
def default_port (scheme : String) : Nat :=
  if scheme = "https" then 443 else 80

/-- The HTTP Upgrade request built by `_WebSocket._upgrade`, following the
code's incremental concatenation.  `if url.port:` is Python truthiness: the
`:port` suffix is appended exactly when the URL carries an explicit port
that is not `0`. -/
def upgrade_request (u : ParsedUrl) : String :=
  let path :=
    match qsPath u.query with
    | some v => v
    | none => "websockify"
  let reqdata := "GET /" ++ path ++ " HTTP/1.1\r\n"
  let reqdata := reqdata ++ "Host: " ++ u.hostname
  let reqdata :=
    match u.port with
    | some p => if p ≠ 0 then reqdata ++ ":" ++ toString p else reqdata
    | none => reqdata
  let reqdata := reqdata ++ "\r\n"
  let reqdata := reqdata ++ "Upgrade: websocket\r\nConnection: Upgrade\r\n"
  let reqdata := reqdata ++ "Cookie: " ++ u.query ++ "\r\n"
  let reqdata := reqdata ++ "Sec-WebSocket-Key: x3JJHMbDL1EzLkh9GBhXDw==\r\n"
  let reqdata := reqdata ++ "Sec-WebSocket-Version: 13\r\n"
  let reqdata := reqdata ++ "Sec-WebSocket-Protocol: binary\r\n\r\n"
  reqdata

/-- Modelled from the claim's words: the described byte sequence, with the
`:port` suffix present exactly when a non-default port was given (a port
differing from the scheme's default). -/
def claimed_request (u : ParsedUrl) : String :=
  "GET /" ++ (qsPath u.query).getD "websockify" ++ " HTTP/1.1\r\n" ++
  "Host: " ++ u.hostname ++
  (match u.port with
   | some p => if p ≠ default_port u.scheme then ":" ++ toString p else ""
   | none => "") ++ "\r\n" ++
  "Upgrade: websocket\r\nConnection: Upgrade\r\n" ++
  "Cookie: " ++ u.query ++ "\r\n" ++
  "Sec-WebSocket-Key: x3JJHMbDL1EzLkh9GBhXDw==\r\n" ++
  "Sec-WebSocket-Version: 13\r\n" ++
  "Sec-WebSocket-Protocol: binary\r\n\r\n"

/-- The described byte sequence with the port condition amended to the
code's actual one: the `:port` suffix is present exactly when the URL
carries an explicit, nonzero port. -/
def claimed_request_amended (u : ParsedUrl) : String :=
  "GET /" ++ (qsPath u.query).getD "websockify" ++ " HTTP/1.1\r\n" ++
  "Host: " ++ u.hostname ++
  (match u.port with
   | some p => if p ≠ 0 then ":" ++ toString p else ""
   | none => "") ++ "\r\n" ++
  "Upgrade: websocket\r\nConnection: Upgrade\r\n" ++
  "Cookie: " ++ u.query ++ "\r\n" ++
  "Sec-WebSocket-Key: x3JJHMbDL1EzLkh9GBhXDw==\r\n" ++
  "Sec-WebSocket-Version: 13\r\n" ++
  "Sec-WebSocket-Protocol: binary\r\n\r\n"

/-- Setting bit 7 and reading back the low 7 bits is the identity below 128. -/
theorem or128_and127 : ∀ n < 128, (n ||| 128) &&& 127 = n := by decide

/-- Setting bit 7 makes the high (mask) bit of the byte set. -/
theorem or128_and128 : ∀ n < 128, (n ||| 128) &&& 128 = 128 := by decide

/-- Reading every position of a list back in order reproduces the list. -/
theorem range_map_getD (l : List Nat) :
    (List.range l.length).map (fun i => l.getD i 0) = l := by
  apply List.ext_getElem
  · simp
  · intro i h₁ h₂
    simp only [List.getElem_map, List.getElem_range]
    exact List.getD_eq_getElem l 0 h₂

/-- A found occurrence of `pat` lies entirely inside `l`. -/
theorem findSubIdx_bound : ∀ (l pat : List Nat) (k : Nat),
    findSubIdx l pat = some k → k + pat.length ≤ l.length := by
  intro l
  induction l with
  | nil =>
    intro pat k h
    by_cases hp : pat.isEmpty
    · rw [List.isEmpty_iff] at hp
      simp [findSubIdx, hp] at h
      simp [hp, ← h]
    · simp [findSubIdx, hp] at h
  | cons a t ih =>
    intro pat k h
    simp only [findSubIdx] at h
    by_cases hpre : pat.isPrefixOf (a :: t)
    · simp only [hpre, if_true] at h
      have hle := (List.isPrefixOf_iff_prefix.mp hpre).length_le
      obtain rfl : (0 : Nat) = k := Option.some.inj h
      simpa using hle
    · rw [if_neg hpre] at h
      rcases ho : findSubIdx t pat with _ | k'
      · rw [ho] at h
        simp at h
      · rw [ho] at h
        simp only [Option.map_some', Option.some.injEq] at h
        have := ih pat k' ho
        simp only [List.length_cons]
        omega

/-- `_recv` only ever shortens the read-ahead buffer (it serves it first
and never writes it back). -/
theorem wsRecv_cached_suffix (n : Nat) (s : WSState) :
    (wsRecv n s).2.cached_stream <:+ s.cached_stream := by
  unfold wsRecv
  by_cases h : n = 0
  · simp [h]
  · by_cases h2 : 0 < n - min s.cached_stream.length n <;>
      simpa [h, h2] using List.drop_suffix _ s.cached_stream

/-- Across any completed `receive_frame` call the read-ahead buffer only
shrinks: the resulting buffer is a suffix of the starting one, so an
exhausted buffer is never refilled. -/
theorem receive_frame_cached_suffix :
    ∀ (fuel : Nat) (s : WSState) (p : Option (List Nat)) (s' : WSState),
    receive_frame fuel s = .frame p s' → s'.cached_stream <:+ s.cached_stream := by
  intro fuel
  induction fuel with
  | zero =>
    intro s p s' h
    simp [receive_frame] at h
  | succ n ih =>
    intro s p s' h
    rw [receive_frame] at h
    rcases hr : (wsRecv 2 s).1 with _ | header
    · rw [hr] at h
      simp only [RecvResult.frame.injEq] at h
      rw [← h.2]
      exact wsRecv_cached_suffix 2 s
    · rcases header with _ | ⟨a, t⟩
      · rw [hr] at h
        simp only [RecvResult.frame.injEq] at h
        rw [← h.2]
        exact wsRecv_cached_suffix 2 s
      · rcases t with _ | ⟨h1, t'⟩
        · rw [hr] at h
          simp at h
        · rw [hr] at h
          simp only [List.get?] at h
          by_cases hb : 0 < h1 &&& 127
          · simp only [hb, if_true, RecvResult.frame.injEq] at h
            rw [← h.2]
            exact (wsRecv_cached_suffix _ (wsRecv 2 s).2).trans (wsRecv_cached_suffix 2 s)
          · simp only [hb, if_false] at h
            exact (ih _ _ _ h).trans (wsRecv_cached_suffix 2 s)

/-- C6: when the read-ahead buffer is empty and the socket read for the
2-byte header returns no bytes (peer closed), `receive_frame` returns the
null result `None` — it does not raise and does not loop. -/
theorem receive_on_closed_socket_returns_none (fuel : Nat) :
    receive_frame (fuel + 1) ⟨[], []⟩ = .frame none ⟨[], []⟩ := rfl

/-- C8: `close` is idempotent: the first call leaves the socket handle
released, and a second call on the released handle performs no socket
operation at all (so it cannot raise). -/
theorem close_idempotent (s : Option Unit) :
    (ws_close s).1 = none ∧ ws_close (ws_close s).1 = (none, []) := by
  cases s <;> simp [ws_close]

/-- C9 is false on the code: when the header read returns a single byte —
read-ahead buffer holding one byte with the socket closed, or a short
socket read of one byte — `receive_frame`'s access `header[1]` is out of
bounds and raises `IndexError`. -/
theorem receive_single_byte_header_index_error :
    receive_frame 1 ⟨[66], []⟩ = .indexError ∧
    receive_frame 1 ⟨[], [[130], [5, 1, 2, 3, 4, 5]]⟩ = .indexError := by
  decide

/-- C10 is false on the code: when the delimiter never arrives (socket
closes first) and at least 4 bytes were accumulated, `find` returns `-1`
and the split at `end_loc + 4 = 3` moves `response[3:]` into the read-ahead
buffer and truncates the retained response to its first 3 bytes.  Here the
accumulated bytes are `HTTP` = `[72, 84, 84, 80]`. -/
theorem upgrade_no_delimiter_pollutes_cache :
    upgrade_read 4 [[72, 84, 84, 80]] = some ([72, 84, 84], ⟨[80], []⟩) ∧
    upgrade_read 4 [[72, 84, 84, 80]] ≠ some ([72, 84, 84, 80], ⟨[], []⟩) := by
  decide

/-- C5 as stated is false: a frame whose decoded length field is 5 can be
answered with only 3 payload bytes, because the payload is fetched with a
single socket read and a fragmented delivery (here `[10,20,30]` then
`[40,50]`) causes a short read. -/
theorem receive_fragmented_payload_truncated :
    receive_frame 5 ⟨[], [[130, 5, 10, 20, 30], [40, 50]]⟩
      = .frame (some [10, 20, 30]) ⟨[], [[40, 50]]⟩ ∧
    (5 : Nat) &&& 127 = 5 ∧ ([10, 20, 30] : List Nat).length ≠ 5 := by
  decide

/-- C3: for any payload of at most 125 bytes, the transmitted frame is 6
header bytes followed by the payload: first byte = binary opcode with the
final-fragment bit (`128 ||| 2`), second byte's low 7 bits = the payload
length with the mask bit set, then the fixed mask key `[7, 2, 1, 9]`, and
XORing the remaining bytes against the mask key cycled over its 4 bytes
recovers the payload exactly. -/
theorem send_frame_layout_and_roundtrip (P : List Nat) (h : P.length ≤ 125) :
    (send_frame P).length = 6 + P.length ∧
    (send_frame P).getD 0 0 = 128 ||| 2 ∧
    (send_frame P).getD 1 0 &&& 127 = P.length ∧
    (send_frame P).getD 1 0 &&& 128 = 128 ∧
    ((send_frame P).drop 2).take 4 = mask ∧
    (List.range P.length).map
      (fun i => ((send_frame P).drop 6).getD i 0 ^^^ mask.getD (i % 4) 0) = P := by
  have h128 : P.length < 128 := by omega
  refine ⟨?_, ?_, ?_, ?_, ?_, ?_⟩
  · simp [send_frame, mask]; omega
  · rfl
  · simpa [send_frame, mask] using or128_and127 P.length h128
  · simpa [send_frame, mask] using or128_and128 P.length h128
  · rfl
  · have hdrop : (send_frame P).drop 6
        = (List.range P.length).map (fun i => P.getD i 0 ^^^ mask.getD (i % 4) 0) := rfl
    rw [hdrop]
    apply List.ext_getElem
    · simp
    · intro i h₁ h₂
      simp only [List.getElem_map, List.getElem_range]
      have hm : i < ((List.range P.length).map
          (fun i => P.getD i 0 ^^^ mask.getD (i % 4) 0)).length := by
        simpa using h₂
      rw [List.getD_eq_getElem _ 0 hm]
      simp only [List.getElem_map, List.getElem_range]
      rw [Nat.xor_assoc, Nat.xor_self, Nat.xor_zero]
      exact List.getD_eq_getElem P 0 h₂

/-- Witness for C3 at the concrete payload `[1, 2, 3]`. -/
theorem send_frame_layout_and_roundtrip_witness :
    (send_frame [1, 2, 3]).length = 6 + ([1, 2, 3] : List Nat).length ∧
    (send_frame [1, 2, 3]).getD 0 0 = 128 ||| 2 ∧
    (send_frame [1, 2, 3]).getD 1 0 &&& 127 = ([1, 2, 3] : List Nat).length ∧
    (send_frame [1, 2, 3]).getD 1 0 &&& 128 = 128 ∧
    ((send_frame [1, 2, 3]).drop 2).take 4 = mask ∧
    (List.range ([1, 2, 3] : List Nat).length).map
      (fun i => ((send_frame [1, 2, 3]).drop 6).getD i 0 ^^^ mask.getD (i % 4) 0)
      = [1, 2, 3] :=
  send_frame_layout_and_roundtrip [1, 2, 3] (by decide)

/-- C4: three frames arriving consecutively with payload lengths 0, 0 and a
positive one: a single `receive_frame` call silently absorbs both
zero-length frames and returns the non-empty payload, consuming all three
frames. -/
theorem receive_skips_zero_length_frames (b0 b1 c0 c1 d0 d1 : Nat)
    (p : List Nat) (rest : List (List Nat)) (fuel : Nat)
    (hb : b1 &&& 127 = 0) (hc : c1 &&& 127 = 0)
    (hd : d1 &&& 127 = p.length) (hp : p ≠ []) :
    receive_frame (fuel + 3) ⟨[], (b0 :: b1 :: c0 :: c1 :: d0 :: d1 :: p) :: rest⟩
      = .frame (some p) ⟨[], rest⟩ := by
  have hp' : 0 < p.length := List.length_pos.mpr hp
  simp [receive_frame, wsRecv, sockRecv, hb, hc, hd, hp, hp',
    List.take_of_length_le, List.drop_eq_nil_of_le]

/-- Witness for C4: frame lengths 0, 0, 5 in one delivery, one call
returns the 5-byte payload. -/
theorem receive_skips_zero_length_frames_witness :
    receive_frame (0 + 3) ⟨[], (130 :: 128 :: 130 :: 128 :: 130 :: 133 :: [9, 8, 7, 6, 5]) :: []⟩
      = .frame (some [9, 8, 7, 6, 5]) ⟨[], []⟩ :=
  receive_skips_zero_length_frames 130 128 130 128 130 133 [9, 8, 7, 6, 5] [] 0
    (by decide) (by decide) (by decide) (by decide)

/-- C5, amended: when a frame's header and its full `L = header[1] & 127`
payload bytes (`1 ≤ L ≤ 125`) are available in one delivery,
`receive_frame` returns exactly those `L` bytes raw — no unmasking is
applied.  (As stated the claim fails: the payload is fetched by a single
socket read, so a fragmented delivery yields fewer than `L` bytes.) -/
theorem receive_returns_payload_raw (h0 h1 : Nat) (p : List Nat)
    (rest : List (List Nat)) (fuel : Nat)
    (hlen : h1 &&& 127 = p.length) (hpos : 0 < p.length) (_hle : p.length ≤ 125) :
    receive_frame (fuel + 1) ⟨[], (h0 :: h1 :: p) :: rest⟩
      = .frame (some p) ⟨[], rest⟩ := by
  have hp : p ≠ [] := List.length_pos.mp hpos
  simp [receive_frame, wsRecv, sockRecv, hlen, hpos, hp,
    List.take_of_length_le, List.drop_eq_nil_of_le]

/-- Witness for the amended C5 at a concrete 5-byte frame. -/
theorem receive_returns_payload_raw_witness :
    receive_frame (0 + 1) ⟨[], (130 :: 5 :: [10, 20, 30, 40, 50]) :: [[60]]⟩
      = .frame (some [10, 20, 30, 40, 50]) ⟨[], [[60]]⟩ :=
  receive_returns_payload_raw 130 5 [10, 20, 30, 40, 50] [[60]] 0
    (by decide) (by decide) (by decide)

/-- C7: the connect loop takes the resolved addresses in order and stops at
the first that accepts (so a refusing first address does not make it
raise), and it fails — with the single error `WebSocket creation failed` —
exactly when every candidate address fails to connect. -/
theorem create_websocket_first_success (pre : List AddrInfo) (a : AddrInfo)
    (post addrs : List AddrInfo)
    (hpre : ∀ b ∈ pre, b.connects = false) (ha : a.connects = true) :
    create_websocket (pre ++ a :: post) = .ok a.sa ∧
    (create_websocket addrs = .error "WebSocket creation failed"
      ↔ ∀ b ∈ addrs, b.connects = false) := by
  constructor
  · induction pre with
    | nil => simp [create_websocket, ha]
    | cons x xs ih =>
      have hx : x.connects = false := hpre x (by simp)
      simpa [create_websocket, hx] using ih fun b hb => hpre b (by simp [hb])
  · induction addrs with
    | nil => simp [create_websocket]
    | cons x xs ih =>
      by_cases hx : x.connects <;> simp [create_websocket, hx, ih]

/-- Witness for C7: first address refuses, second accepts; and a list
where both refuse raises `WebSocket creation failed`. -/
theorem create_websocket_first_success_witness :
    create_websocket ([⟨0, false⟩] ++ ⟨1, true⟩ :: []) = .ok 1 ∧
    (create_websocket [⟨0, false⟩, ⟨1, false⟩] = .error "WebSocket creation failed"
      ↔ ∀ b ∈ ([⟨0, false⟩, ⟨1, false⟩] : List AddrInfo), b.connects = false) :=
  create_websocket_first_success [⟨0, false⟩] ⟨1, true⟩ [] [⟨0, false⟩, ⟨1, false⟩]
    (by decide) rfl

/-- C2: when the handshake response (read in one delivery) contains the
`\r\n\r\n` delimiter at index `k`, everything past the delimiter ends up in
the read-ahead buffer; `_recv` consumes the buffer FIFO (the served bytes
start with the next buffered bytes), touches the socket only when the
buffer cannot satisfy the request, only ever shortens the buffer (so the
first receive after the handshake is served from the buffered bytes
first), and across any completed `receive_frame` the buffer only shrinks —
once exhausted it is never refilled. -/
theorem handshake_read_ahead_fifo (resp : List Nat) (k fuel n : Nat)
    (cached : List Nat) (chunks : List (List Nat))
    (fuel₂ : Nat) (s₀ s₀' : WSState) (r₀ : Option (List Nat))
    (hfind : findSubIdx resp crlfcrlf = some k)
    (hlen : resp.length ≤ 4096)
    (hn : 0 < n)
    (hrecv : receive_frame fuel₂ s₀ = .frame r₀ s₀') :
    upgrade_read (fuel + 1) [resp] = some (resp.take (k + 4), ⟨resp.drop (k + 4), []⟩)
    ∧ (wsRecv n ⟨cached, chunks⟩).2.cached_stream = cached.drop n
    ∧ (n ≤ cached.length →
        wsRecv n ⟨cached, chunks⟩ = (some (cached.take n), ⟨cached.drop n, chunks⟩))
    ∧ (∃ extra, (wsRecv n ⟨cached, chunks⟩).1 = some (cached.take n ++ extra))
    ∧ s₀'.cached_stream <:+ s₀.cached_stream := by
  have hn0 : n ≠ 0 := by omega
  have hb : k + 4 ≤ resp.length := by
    simpa [crlfcrlf] using findSubIdx_bound resp crlfcrlf k hfind
  have hfd : pyFind resp crlfcrlf = (k : Int) := by simp [pyFind, hfind]
  have hknn : ¬ ((k : Int) < 0) := by omega
  refine ⟨?_, ?_, ?_, ?_, ?_⟩
  · unfold upgrade_read
    simp only [sockRecv, List.take_of_length_le hlen, List.drop_eq_nil_of_le hlen,
      if_pos rfl]
    rw [upgrade_loop]
    simp only [hfd, hknn, and_false, if_false]
    by_cases hgt : k + 4 < resp.length
    · have hgt' : ((resp.length : Nat) : Int) > (k : Int) + 4 := by
        omega
      have ht : (((k : Int) + 4)).toNat = k + 4 := by omega
      simp [hfd, hgt', ht]
    · have heq : resp.length = k + 4 := by omega
      have hngt : ¬ ((resp.length : Nat) : Int) > (k : Int) + 4 := by omega
      simp [hfd, hngt, List.take_of_length_le (by omega : resp.length ≤ k + 4),
        List.drop_eq_nil_of_le (by omega : resp.length ≤ k + 4)]
  · have hdrop : cached.drop (min cached.length n) = cached.drop n := by
      rcases le_total cached.length n with h | h
      · rw [min_eq_left h, List.drop_eq_nil_of_le (le_refl _),
          List.drop_eq_nil_of_le h]
      · rw [min_eq_right h]
    by_cases h2 : 0 < n - min cached.length n <;> simp [wsRecv, hn0, h2, hdrop]
  · intro hcc
    have hmin : min cached.length n = n := min_eq_right hcc
    simp [wsRecv, hn0, hmin]
  · by_cases hcc : n ≤ cached.length
    · refine ⟨[], ?_⟩
      have hmin : min cached.length n = n := min_eq_right hcc
      simp [wsRecv, hn0, hmin]
    · have hlt : cached.length < n := by omega
      have hmin : min cached.length n = cached.length := min_eq_left (le_of_lt hlt)
      have hrem : 0 < n - cached.length := by omega
      refine ⟨(sockRecv (n - cached.length) chunks).1, ?_⟩
      simp [wsRecv, hn0, hmin, hrem, List.take_length,
        List.take_of_length_le (le_of_lt hlt)]
  · exact receive_frame_cached_suffix fuel₂ s₀ r₀ s₀' hrecv

/-- Witness for C2: a handshake delivery holding the delimiter at index 1
plus two extra bytes, a 1-byte `_recv` from a 2-byte buffer, and a
completed receive on a closed socket. -/
theorem handshake_read_ahead_fifo_witness :
    upgrade_read (0 + 1) [[72, 13, 10, 13, 10, 99, 100]]
      = some (([72, 13, 10, 13, 10, 99, 100] : List Nat).take (1 + 4),
          ⟨([72, 13, 10, 13, 10, 99, 100] : List Nat).drop (1 + 4), []⟩)
    ∧ (wsRecv 1 ⟨[5, 6], [[7]]⟩).2.cached_stream = ([5, 6] : List Nat).drop 1
    ∧ (1 ≤ ([5, 6] : List Nat).length →
        wsRecv 1 ⟨[5, 6], [[7]]⟩
          = (some (([5, 6] : List Nat).take 1), ⟨([5, 6] : List Nat).drop 1, [[7]]⟩))
    ∧ (∃ extra, (wsRecv 1 ⟨[5, 6], [[7]]⟩).1 = some (([5, 6] : List Nat).take 1 ++ extra))
    ∧ (⟨[], []⟩ : WSState).cached_stream <:+ (⟨[], []⟩ : WSState).cached_stream :=
  handshake_read_ahead_fifo [72, 13, 10, 13, 10, 99, 100] 1 0 1 [5, 6] [[7]]
    1 ⟨[], []⟩ ⟨[], []⟩ none (by decide) (by decide) (by decide) (by decide)

/-- C1 as stated is false: for `http://h:80/?path=abc` the URL carries an
explicit port equal to the scheme's default, the code appends `:80` to the
Host header, but the claimed byte sequence (suffix exactly when a
non-default port was given) has none. -/
theorem upgrade_request_differs_from_claim :
    upgrade_request ⟨"http", "h", some 80, "path=abc"⟩
      ≠ claimed_request ⟨"http", "h", some 80, "path=abc"⟩ := by
  decide

/-- C1, amended: for every URL the request is exactly the described byte
sequence — GET line with the decoded `path` query-parameter value (default
`websockify`) after `/`, then Host (with `:port` suffix exactly when the
URL carries an explicit nonzero port, even if it equals the scheme's
default), Upgrade, Connection, Cookie = raw query string, the fixed
Sec-WebSocket-Key, Sec-WebSocket-Version and Sec-WebSocket-Protocol, each
line CRLF-terminated and ended by a blank line. -/
theorem upgrade_request_byte_exact (u : ParsedUrl) :
    upgrade_request u = claimed_request_amended u := by
  obtain ⟨scheme, hostname, port, query⟩ := u
  simp only [upgrade_request, claimed_request_amended]
  cases hq : qsPath query with
  | none =>
    cases port with
    | none =>
      simp only [Option.getD, String.append_assoc, String.append_empty,
        String.empty_append]
    | some p =>
      by_cases hp : p = 0
      · have hp' : ¬ (p ≠ 0) := by simp [hp]
        dsimp only [Option.getD]
        rw [if_neg hp', if_neg hp']
        simp only [String.append_assoc, String.append_empty, String.empty_append]
      · dsimp only [Option.getD]
        rw [if_pos hp, if_pos hp]
        simp only [String.append_assoc, String.append_empty, String.empty_append]
  | some v =>
    cases port with
    | none =>
      simp [Option.getD, String.append_assoc, String.append_empty,
        String.empty_append]
    | some p =>
      by_cases hp : p = 0 <;>
        simp [hp, Option.getD, String.append_assoc, String.append_empty,
          String.empty_append]

end Tempest
